import Mathlib

/-!
Verification of the computational core of the bike-sharing dashboard
(`bike_sharing_dashboard.py`): the filter engine, the pandas aggregations
(rolling mean, groupby/reindex, pivot tables, idxmax, percent change) and
the `np.polyfit`-based trend fitting, shallowly embedded over exact
rational/integer arithmetic.

Modelling conventions:
- a pandas row becomes a `Record`; a DataFrame becomes a `List Record`
  in its stored (date) order;
- integer column sums are exact (`Int`); float results are `Rat`;
- IEEE special values produced by numpy float division (`inf`, `-inf`,
  `nan`) are modelled by the four-constructor type `FVal`;
- a pandas `NaN` cell introduced by `reindex` / `rolling` / `pivot_table`
  is modelled as `none`;
- an operation that raises a Python exception is modelled as
  `Except.error` (or `none` for `Option`-valued functions), with the
  message matching the exception raised.
-/

namespace BikeSharing

/-- One row of the bike-sharing table: one calendar day.  Field names follow
the column names declared in the script (lines 124-138); `date` is a day
ordinal, categorical columns are strings, the normalized weather measures are
rationals, and the rental counts are integers with `total = casual +
registered` in the real data (not assumed here unless stated). -/
structure Record where
  date : Int
  season : String
  year : Int
  month : String
  holiday : Bool
  weekday : String
  workingday : Bool
  weather_situation : String
  temperature : Rat
  feel_temperature : Rat
  humidity : Rat
  windspeed : Rat
  casual : Int
  registered : Int
  total : Int
deriving DecidableEq, Repr

/-- The sidebar filter application (script lines 161-167): start from a copy
of the full table, then apply each `isin` mask only when the corresponding
multiselect list is non-empty (`if year_filter:` is Python truthiness, so an
empty selection skips that filter). -/
def filtered_data (data : List Record) (year_filter : List Int)
    (season_filter weather_filter : List String) : List Record :=
  let fd := data
  let fd := if year_filter.isEmpty then fd
    else fd.filter fun r => year_filter.contains r.year
  let fd := if season_filter.isEmpty then fd
    else fd.filter fun r => season_filter.contains r.season
  if weather_filter.isEmpty then fd
  else fd.filter fun r => weather_filter.contains r.weather_situation

/-- The spec's retention predicate: a record is kept iff each of the three
selections is empty or contains the record's value. -/
def keepsRecord (year_filter : List Int) (season_filter weather_filter : List String)
    (r : Record) : Bool :=
  (year_filter.isEmpty || year_filter.contains r.year) &&
  ((season_filter.isEmpty || season_filter.contains r.season) &&
   (weather_filter.isEmpty || weather_filter.contains r.weather_situation))

/-- The `total` column of a table, as exact rationals (pandas promotes the
integer column to float when taking a rolling mean). -/
def totalsOf (rows : List Record) : List Rat :=
  rows.map fun r => (r.total : Rat)

/-- Model of `Series.rolling(window=w).mean()` with the pandas default
`min_periods = window`: position `i` holds the mean of the `w` entries ending
at `i` once `i + 1 ≥ w`, and `NaN` (modelled `none`) before that. -/
def rollingMean (window : Nat) (xs : List Rat) : List (Option Rat) :=
  (List.range xs.length).map fun i =>
    if window ≤ i + 1 then
      some ((((xs.drop (i + 1 - window)).take window).sum) / window)
    else none

/-- The `moving_avg_total` column added at script lines 197-198:
`filtered_data[total].rolling(window=10).mean()`. -/
def moving_avg_total (rows : List Record) : List (Option Rat) :=
  rollingMean 10 (totalsOf rows)

/-- A numpy float result: a finite rational, `inf`, `-inf`, or `nan`. -/
inductive FVal where
  | fin (q : Rat)
  | pinf
  | ninf
  | nan
deriving DecidableEq, Repr

/-- numpy true division of two (exactly represented) numbers: finite quotient
when the divisor is nonzero; `0/0` is `nan`; `x/0` for `x ≠ 0` is signed
infinity (numpy emits a RuntimeWarning, not an exception). -/
def npDiv (a b : Rat) : FVal :=
  if b ≠ 0 then .fin (a / b)
  else if a = 0 then .nan
  else if 0 < a then .pinf
  else .ninf

/-- Multiplication of a numpy float by a finite constant (`nan` absorbs;
infinity keeps or flips sign, and `inf * 0 = nan`). -/
def npMulConst (v : FVal) (c : Rat) : FVal :=
  match v with
  | .fin q => .fin (q * c)
  | .pinf => if 0 < c then .pinf else if c < 0 then .ninf else .nan
  | .ninf => if 0 < c then .ninf else if c < 0 then .pinf else .nan
  | .nan => .nan

/-- Model of `filtered_data[filtered_data[year] == y][total].sum()`: the exact integer
sum of `total` over the rows of the given year (pandas returns 0 on an empty
selection). -/
def sumTotalOfYear (rows : List Record) (y : Int) : Int :=
  ((rows.filter fun r => r.year == y).map Record.total).sum

/-- The yearly-growth metric (script lines 186-188):
`(sum(total | year=2012) - sum(total | year=2011)) / sum(total | year=2011) * 100`
computed with numpy integer sums and float division. -/
def pct_change (rows : List Record) : FVal :=
  npMulConst
    (npDiv ((sumTotalOfYear rows 2012 : Rat) - (sumTotalOfYear rows 2011 : Rat))
      (sumTotalOfYear rows 2011 : Rat))
    100

/-- A one-row dataset used as a concrete counterexample input: year 2012,
total 100, no 2011 rows. -/
def rec2012 : Record :=
  ⟨366, "spring", 2012, "Jan", false, "Sun", true, "good", 0, 0, 0, 0, 40, 60, 100⟩

/-- Model of `filtered_data[total].sum()` (script line 176): 0 on an empty table. -/
def sumTotal (rows : List Record) : Int :=
  (rows.map Record.total).sum

/-- Model of `filtered_data[total].mean()` (script line 179): the float mean, `NaN`
on an empty table (pandas reports `nan`, it does not raise). -/
def meanTotal (rows : List Record) : FVal :=
  if rows.isEmpty then .nan
  else .fin ((sumTotal rows : Rat) / rows.length)

/-- Position of the first maximal `total`, scanning left to right:
`best` is the best position so far, `v` its value, `i` the position of the
head of the remaining list. -/
def idxmaxAux : List Record → Nat → Nat → Int → Nat
  | [], _, best, _ => best
  | r :: t, i, best, v =>
    if v < r.total then idxmaxAux t (i + 1) i r.total
    else idxmaxAux t (i + 1) best v

/-- Model of `Series.idxmax()`: the (positional) index of the first maximum of the
`total` column; on an empty series pandas raises
`ValueError: attempt to get argmax of an empty sequence`. -/
def idxmaxTotal (rows : List Record) : Except String Nat :=
  match rows with
  | [] => .error "attempt to get argmax of an empty sequence"
  | r :: t => .ok (idxmaxAux t 1 0 r.total)

/-- The Peak Rental Day metric (script line 182):
`filtered_data.loc[filtered_data[total].idxmax(), date]` — the date of the
row holding the first maximal total; propagates the `idxmax` error on an
empty table. -/
def max_date (rows : List Record) : Except String Int :=
  (idxmaxTotal rows).map fun i =>
    match rows.get? i with
    | some r => r.date
    | none => 0

/-- The fixed weekday order used by the weekday charts (script line 262). -/
def day_order : List String :=
  ["Sun", "Mon", "Tue", "Wed", "Thu", "Fri", "Sat"]

/-- The sorted list of distinct values of a string column: pandas `groupby`
and `pivot_table` sort the group keys lexicographically. -/
def sortDedup (l : List String) : List String :=
  l.dedup.mergeSort fun a b => decide (a ≤ b)

/-- Model of `df[[k, total]].groupby(k).sum()`: one row per distinct key (sorted),
holding the integer sum of `total` over that group. -/
def groupby_sum_total (key : Record → String) (rows : List Record) :
    List (String × Int) :=
  (sortDedup (rows.map key)).map fun k =>
    (k, sumTotal (rows.filter fun r => key r == k))

/-- Model of `DataFrame.reindex(idx)`: one row per requested label in the requested
order; labels absent from the table become `NaN` (`none`). -/
def reindex (idx : List String) (tbl : List (String × Int)) :
    List (String × Option Int) :=
  idx.map fun k => (k, tbl.lookup k)

/-- Weekday totals (script lines 261-263): group by weekday, sum `total`,
reindex to the fixed Sun..Sat order. -/
def total_rental_per_weekday (rows : List Record) : List (String × Option Int) :=
  reindex day_order (groupby_sum_total Record.weekday rows)

/-- Weather-situation totals (script line 279):
`filtered_data.groupby(weather_situation)[total].sum()`. -/
def weather_situation_total (rows : List Record) : List (String × Int) :=
  groupby_sum_total Record.weather_situation rows

/-- The distinct seasons of the table, sorted (the pivot's row index). -/
def seasonsOf (rows : List Record) : List String :=
  sortDedup (rows.map Record.season)

/-- The distinct weather situations of the table, sorted (the pivots' column
index). -/
def weathersOf (rows : List Record) : List String :=
  sortDedup (rows.map Record.weather_situation)

/-- The distinct weekdays of the table, sorted (the weekday pivot's row
index before `.loc`). -/
def weekdaysOf (rows : List Record) : List String :=
  sortDedup (rows.map Record.weekday)

/-- One cell of a sum pivot table: the sum of `total` over the rows matched
by `p`, or `NaN` (`none`) when no row matches that combination. -/
def pivotCell (rows : List Record) (p : Record → Bool) : Option Int :=
  if rows.any p then some (sumTotal (rows.filter p)) else none

/-- The season × weather pivot (script lines 317-322): rows indexed by the
distinct seasons, columns by the distinct weather situations, each cell the
sum of `total` for that combination (`NaN` when absent). -/
def season_weather_rentals (rows : List Record) :
    List (String × List (String × Option Int)) :=
  (seasonsOf rows).map fun s =>
    (s, (weathersOf rows).map fun w =>
      (w, pivotCell rows fun r => r.season == s && r.weather_situation == w))

/-- Summing one weather column of the season × weather pivot across all
seasons, a `NaN` cell contributing nothing. -/
def pivot_col_sum (rows : List Record) (w : String) : Int :=
  ((seasonsOf rows).map fun s =>
    (pivotCell rows fun r => r.season == s && r.weather_situation == w).getD 0).sum

/-- The weekday × weather pivot before row selection (script lines 297-302). -/
def weekday_weather_pivot (rows : List Record) :
    List (String × List (String × Option Int)) :=
  (weekdaysOf rows).map fun d =>
    (d, (weathersOf rows).map fun w =>
      (w, pivotCell rows fun r => r.weekday == d && r.weather_situation == w))

/-- Model of `df.loc[idx]` with a list of labels: selects the rows in the given order,
raising a `KeyError` when any requested label is missing from the index
(unlike `reindex`, which fills the gap with `NaN`). -/
def locRows {α : Type} (idx : List String) (tbl : List (String × α)) :
    Except String (List (String × α)) :=
  if idx.all fun k => (tbl.lookup k).isSome then
    .ok (idx.filterMap fun k => (tbl.lookup k).map fun v => (k, v))
  else .error "KeyError: labels not in index"

/-- The weekday × weather chart data (script lines 297-303): the pivot with
`.loc[day_order]` applied to force the fixed Sun..Sat row order. -/
def total_rentals_weekday_weather (rows : List Record) :
    Except String (List (String × List (String × Option Int))) :=
  locRows day_order (weekday_weather_pivot rows)

/-- The power sum `sum(x ** k)` over a list. -/
def sumPow (xs : List Rat) (k : Nat) : Rat :=
  (xs.map fun x => x ^ k).sum

/-- The mixed moment `sum(x ** k * y)` over zipped lists. -/
def sumPowY (xs ys : List Rat) (k : Nat) : Rat :=
  ((xs.zip ys).map fun p => p.1 ^ k * p.2).sum

/-- Determinant of a 3 × 3 matrix given row by row. -/
def det3 (a b c d e f g h i : Rat) : Rat :=
  a * (e * i - f * h) - b * (d * i - f * g) + c * (d * h - e * g)

/-- Determinant of the degree-2 normal matrix `Vᵀ V` of the Vandermonde
system; it is nonzero exactly when the degree-2 fit is determined (at least
three distinct x-values). -/
def detNormal2 (xs : List Rat) : Rat :=
  det3 (sumPow xs 4) (sumPow xs 3) (sumPow xs 2)
    (sumPow xs 3) (sumPow xs 2) (sumPow xs 1)
    (sumPow xs 2) (sumPow xs 1) (sumPow xs 0)

/-- Model of `np.polyfit(x, y, deg=2)` in exact rational arithmetic: the least-squares
coefficients `[c2, c1, c0]` (highest degree first, as numpy returns them).
When the normal matrix is invertible this is the unique least-squares
solution, obtained by Cramer's rule on the normal equations.  When it is
singular (fewer than 3 distinct x-values) numpy does not raise: `lstsq`
returns a minimum-norm least-squares solution and only emits a `RankWarning`;
the model then returns the lower-degree least-squares fit, which also
satisfies the degree-2 normal equations, so it is a genuine least-squares
solution as well (no modelled claim depends on which least-squares solution
is returned in the rank-deficient case). -/
def polyfit2 (x y : List Rat) : List Rat :=
  let s0 := sumPow x 0
  let s1 := sumPow x 1
  let s2 := sumPow x 2
  let s3 := sumPow x 3
  let s4 := sumPow x 4
  let t0 := sumPowY x y 0
  let t1 := sumPowY x y 1
  let t2 := sumPowY x y 2
  let dd := det3 s4 s3 s2 s3 s2 s1 s2 s1 s0
  if dd ≠ 0 then
    [det3 t2 s3 s2 t1 s2 s1 t0 s1 s0 / dd,
     det3 s4 t2 s2 s3 t1 s1 s2 t0 s0 / dd,
     det3 s4 s3 t2 s3 s2 t1 s2 s1 t0 / dd]
  else
    let d1 := s2 * s0 - s1 * s1
    if d1 ≠ 0 then
      [0, (t1 * s0 - t0 * s1) / d1, (s2 * t0 - s1 * t1) / d1]
    else
      [0, 0, t0 / s0]

/-- Model of `np.poly1d(coeffs)` evaluation by Horner's rule, coefficients highest
degree first. -/
def poly1d (c : List Rat) (t : Rat) : Rat :=
  c.foldl (fun acc a => acc * t + a) 0

/-- Model of `np.min` of a non-empty list (the `[]` case is unreachable: the caller
errors out on empty input first, as numpy raises there). -/
def listMin : List Rat → Rat
  | [] => 0
  | x :: t => t.foldl min x

/-- Model of `np.max` of a non-empty list. -/
def listMax : List Rat → Rat
  | [] => 0
  | x :: t => t.foldl max x

/-- Model of `np.linspace(lo, hi, num)`: `num` evenly spaced samples from `lo` to `hi`
inclusive; in exact arithmetic the final sample `lo + (num-1) · step` equals
`hi` (numpy additionally overwrites the endpoint to make this exact in
floating point). -/
def linspace (lo hi : Rat) (num : Nat) : List Rat :=
  (List.range num).map fun i : Nat => lo + (i : Rat) * (hi - lo) / ((num : Rat) - 1)

/-- The trend-fitting helper (script lines 104-111), at the degree 2 used by
both call sites, with `num_points = 200`: fit the least-squares polynomial
and evaluate it on a uniform grid spanning `[min x, max x]`.  `none` models
the `TypeError` numpy raises from `polyfit` on an empty x or on mismatched
lengths; there is no other failure path — in particular no distinct-x or
zero-width-range check exists in the code. -/
def polynomial_regression_predict (x y : List Rat) (num_points : Nat := 200) :
    Option (List Rat × List Rat) :=
  if x.isEmpty || x.length ≠ y.length then none
  else
    let coeffs := polyfit2 x y
    let x_range := linspace (listMin x) (listMax x) num_points
    let y_pred := x_range.map (poly1d coeffs)
    some (x_range, y_pred)

/-- The sum of squared residuals of the polynomial with coefficients `c`
(highest degree first) against the points `zip x y`. -/
def residual2 (x y c : List Rat) : Rat :=
  ((x.zip y).map fun p => (poly1d c p.1 - p.2) ^ 2).sum

/-- Predicate: `c` is a least-squares degree-≤2 fit of `y` against `x`: among all
coefficient triples it minimises the sum of squared residuals.  This is the
spec's description of the fitting algorithm, stated independently of the
implementation. -/
def IsLeastSquaresFit2 (x y c : List Rat) : Prop :=
  ∀ d : List Rat, d.length = 3 → residual2 x y c ≤ residual2 x y d

/-- A DataFrame object in the heap model for the aliasing analysis: its rows
plus the optional `moving_avg_total` column added in place by tab 1. -/
structure DF where
  rows : List Record
  mavg : Option (List (Option Rat))
deriving DecidableEq, Repr

/-- The heap: allocated DataFrame objects, addressed by position. -/
def Store := List DF

/-- Allocate a fresh DataFrame object, returning the new heap and the new
reference.  `data.copy()` and boolean-mask indexing both allocate. -/
def allocDF (s : Store) (t : DF) : Store × Nat :=
  (List.append s [t], s.length)

/-- In-place column assignment `df[moving_avg_total] = ...`: mutates the
object at reference `i`, leaving every other object untouched. -/
def setMavg : Store → Nat → List (Option Rat) → Store
  | [], _, _ => []
  | t :: s, 0, c => { t with mavg := some c } :: s
  | t :: s, i + 1, c => t :: setMavg s i c

/-- Read the object at a reference (unreachable default for a dangling
reference). -/
def readDF (s : Store) (i : Nat) : DF :=
  (s.get? i).getD ⟨[], none⟩

/-- The dashboard script's data-mutating steps as heap operations, in source
order: `load_data()` caches the table at reference 0 (line 121);
`filtered_data = data.copy()` allocates a copy (line 161); each non-empty
selection rebinds `filtered_data` to a freshly allocated mask result (lines
162-167); finally tab 1 assigns the `moving_avg_total` column in place on
the current `filtered_data` object (line 198).  Returns the final heap. -/
def runDashboard (data : List Record) (year_filter : List Int)
    (season_filter weather_filter : List String) : Store :=
  let s0 : Store := [⟨data, none⟩]
  let p1 := allocDF s0 ⟨data, none⟩
  let p2 :=
    if year_filter.isEmpty then p1
    else allocDF p1.1
      ⟨(readDF p1.1 p1.2).rows.filter fun r => year_filter.contains r.year, none⟩
  let p3 :=
    if season_filter.isEmpty then p2
    else allocDF p2.1
      ⟨(readDF p2.1 p2.2).rows.filter fun r => season_filter.contains r.season, none⟩
  let p4 :=
    if weather_filter.isEmpty then p3
    else allocDF p3.1
      ⟨(readDF p3.1 p3.2).rows.filter fun r =>
        weather_filter.contains r.weather_situation, none⟩
  setMavg p4.1 p4.2 (rollingMean 10 (totalsOf (readDF p4.1 p4.2).rows))

/-- Ten concrete rows (all in 2011, totals 10, 20, ..., 100) used as a
concrete input for witness instances. -/
def testRows : List Record :=
  (List.range 10).map fun i : Nat =>
    { date := 100 + (i : Int), season := "spring", year := 2011, month := "Jan",
      holiday := false, weekday := "Sun", workingday := true,
      weather_situation := "good", temperature := 0, feel_temperature := 0,
      humidity := 0, windspeed := 0, casual := 0, registered := 0,
      total := 10 * ((i : Int) + 1) }

/-! ## Theorems -/

theorem filter_pair {α : Type} (p q : α → Bool) (l : List α) :
    (l.filter p).filter q = l.filter fun a => p a && q a := by
  induction l with
  | nil => rfl
  | cons a t ih => by_cases hp : p a <;> by_cases hq : q a <;> simp [List.filter, hp, hq, ih]

/-- C1: the filter retains a record iff (years empty or year selected) and
(seasons empty or season selected) and (weathers empty or weather selected),
keeping the original order and multiplicities; with all three selections
empty it returns the dataset unchanged. -/
theorem filtered_data_spec (data : List Record) (year_filter : List Int)
    (season_filter weather_filter : List String) :
    filtered_data data year_filter season_filter weather_filter =
      data.filter (keepsRecord year_filter season_filter weather_filter) ∧
    filtered_data data [] [] [] = data := by
  constructor
  · unfold filtered_data keepsRecord
    cases year_filter <;> cases season_filter <;> cases weather_filter <;>
      simp [filter_pair, Bool.and_assoc] <;>
      exact (List.filter_congr (by intro r hr; simp [Bool.and_comm, Bool.and_assoc,
        Bool.and_left_comm])).symm
  · simp [filtered_data]

theorem take_drop_sum_eq (l : List Rat) (a b : Nat) (h : a + b ≤ l.length) :
    ((l.drop a).take b).sum = ∑ k ∈ Finset.range b, l.getD (a + k) 0 := by
  induction b generalizing a with
  | zero => simp
  | succ n ih =>
    have ha : a < l.length := by omega
    have hdrop : l.drop a = l.getD a 0 :: l.drop (a + 1) := by
      rw [List.getD_eq_getElem _ _ ha]
      exact List.drop_eq_getElem_cons ha
    rw [hdrop]
    simp only [List.take_succ_cons, List.sum_cons]
    rw [ih (a + 1) (by omega), Finset.sum_range_succ']
    have hshift : ∀ k, l.getD (a + 1 + k) 0 = l.getD (a + (k + 1)) 0 := by
      intro k; congr 1; omega
    simp only [hshift, add_zero]
    ring

/-- C2: the moving-average series has one entry per row; for `i ≥ 9` the
entry is the mean of totals at positions `i-9 .. i`, and for `i < 9` it is
missing (`NaN`), not zero- or back-filled. -/
theorem moving_avg_total_spec (rows : List Record) (i : Nat)
    (hi : i < rows.length) :
    (9 ≤ i → (moving_avg_total rows).getD i none =
      some ((∑ k ∈ Finset.range 10, (totalsOf rows).getD (i - 9 + k) 0) / 10)) ∧
    (i < 9 → (moving_avg_total rows).getD i none = none) ∧
    (moving_avg_total rows).length = rows.length := by
  have hlen : (totalsOf rows).length = rows.length := by simp [totalsOf]
  have hget : (moving_avg_total rows).getD i none =
      (if 10 ≤ i + 1 then
        some (((((totalsOf rows).drop (i + 1 - 10)).take 10).sum) / 10)
       else none) := by
    unfold moving_avg_total rollingMean
    rw [List.getD_eq_getElem _ _ (by simp [hlen, hi])]
    simp
  refine ⟨?_, ?_, ?_⟩
  · intro h9
    rw [hget, if_pos (by omega),
      take_drop_sum_eq _ _ _ (by simp [hlen]; omega)]
    have : i + 1 - 10 = i - 9 := by omega
    rw [this]
  · intro h9
    rw [hget, if_neg (by omega)]
  · simp [moving_avg_total, rollingMean, hlen]

/-- C3 counterexample: on a dataset whose 2011 sum is 0 (absent) and whose
2012 sum is 100, the percent-change computation yields `+inf` — it
propagates infinity instead of reporting an undefined/NaN value. -/
theorem pct_change_propagates_inf :
    pct_change [rec2012] = FVal.pinf ∧ FVal.pinf ≠ FVal.nan := by
  refine ⟨?_, by decide⟩
  simp [pct_change, rec2012, sumTotalOfYear, npDiv, npMulConst]

/-- C3 (amended): the yearly growth equals the formula
`(s2012 - s2011) / s2011 * 100` whenever the 2011 sum is nonzero; when the
2011 sum is zero the computation does not crash, but it yields `nan` only
when the 2012 sum is also zero and otherwise propagates a signed infinity
through the multiplication by 100. -/
theorem pct_change_characterization (rows : List Record) :
    pct_change rows =
      (if sumTotalOfYear rows 2011 ≠ 0 then
        FVal.fin ((((sumTotalOfYear rows 2012 : Rat) - (sumTotalOfYear rows 2011 : Rat)) /
          (sumTotalOfYear rows 2011 : Rat)) * 100)
       else if sumTotalOfYear rows 2012 = 0 then FVal.nan
       else if 0 < sumTotalOfYear rows 2012 then FVal.pinf
       else FVal.ninf) := by
  unfold pct_change npDiv npMulConst
  by_cases h1 : sumTotalOfYear rows 2011 = 0
  · by_cases h2 : sumTotalOfYear rows 2012 = 0
    · simp [h1, h2]
    · by_cases h3 : 0 < sumTotalOfYear rows 2012
      · have : (0 : Rat) < ((sumTotalOfYear rows 2012 : Rat) - (sumTotalOfYear rows 2011 : Rat)) := by
          rw [h1]; push_cast; simpa using h3
        simp [h1, h2, h3, this, sub_eq_zero, show ((sumTotalOfYear rows 2012 : Rat)) ≠ 0 by
          exact_mod_cast h2]
      · have hneg : sumTotalOfYear rows 2012 < 0 := by omega
        have : ¬ (0 : Rat) < ((sumTotalOfYear rows 2012 : Rat) - (sumTotalOfYear rows 2011 : Rat)) := by
          rw [h1]; push_cast; simp; exact_mod_cast hneg.le
        simp [h1, h2, h3, this, sub_eq_zero, show ((sumTotalOfYear rows 2012 : Rat)) ≠ 0 by
          exact_mod_cast h2]
  · have : ((sumTotalOfYear rows 2011 : Rat)) ≠ 0 := by exact_mod_cast h1
    simp [h1, this]

/-- C4 counterexample: on an empty filtered result the Peak Rental Day
metric does not degrade gracefully — `Series.idxmax` raises a `ValueError`,
so not every downstream aggregation returns a zero or "no data" marker. -/
theorem max_date_raises_on_empty :
    max_date [] = Except.error "attempt to get argmax of an empty sequence" ∧
    ∀ v : Int, max_date [] ≠ Except.ok v := by
  refine ⟨rfl, ?_⟩
  intro v h
  simp [max_date, idxmaxTotal, Except.map] at h

/-- C4 (amended): on an empty filtered result most aggregations degrade
gracefully — the sum is 0, the mean and the percent change are `NaN`, the
weekday totals are seven missing entries and the groupby/pivot tables are
empty — but the peak-day lookup (`idxmax`) raises an error instead of
returning a "no data" marker. -/
theorem empty_aggregation_behavior :
    sumTotal [] = 0 ∧
    meanTotal [] = FVal.nan ∧
    pct_change [] = FVal.nan ∧
    total_rental_per_weekday [] = day_order.map (fun d => (d, none)) ∧
    weather_situation_total [] = [] ∧
    season_weather_rentals [] = [] ∧
    max_date [] = Except.error "attempt to get argmax of an empty sequence" := by
  refine ⟨rfl, rfl, ?_, ?_, ?_, ?_, rfl⟩
  · simp [pct_change, sumTotalOfYear, npDiv, npMulConst]
  · simp [total_rental_per_weekday, reindex, groupby_sum_total, sortDedup]
  · simp [weather_situation_total, groupby_sum_total, sortDedup]
  · simp [season_weather_rentals, seasonsOf, sortDedup]

theorem lookup_map_self {β : Type} (f : String → β) (idx : List String) (d : String) :
    (idx.map fun k => (k, f k)).lookup d = if d ∈ idx then some (f d) else none := by
  induction idx with
  | nil => simp
  | cons k t ih =>
    by_cases hk : d = k
    · subst hk; simp [List.lookup]
    · have hbeq : (d == k) = false := beq_eq_false_iff_ne.mpr hk
      simp [List.lookup, hbeq, hk, ih]

theorem mem_sortDedup (a : String) (l : List String) : a ∈ sortDedup l ↔ a ∈ l := by
  unfold sortDedup
  rw [(List.mergeSort_perm l.dedup _).mem_iff, List.mem_dedup]

theorem nodup_sortDedup (l : List String) : (sortDedup l).Nodup :=
  ((List.mergeSort_perm l.dedup _).nodup_iff).mpr (List.nodup_dedup l)

/-- C7: the weekday-totals series is the weekday groupby-sum reindexed to the
fixed Sun..Sat order: it always has exactly 7 entries whose labels are
`day_order` in order, the entry of a weekday present in the table is the sum
of its totals, and the entry of an absent weekday is missing (`NaN`). -/
theorem total_rental_per_weekday_spec (rows : List Record) :
    (total_rental_per_weekday rows).length = 7 ∧
    (total_rental_per_weekday rows).map Prod.fst = day_order ∧
    ∀ d, d ∈ day_order →
      (total_rental_per_weekday rows).lookup d =
        some (if rows.any fun r => r.weekday == d then
          some (sumTotal (rows.filter fun r => r.weekday == d))
        else none) := by
  refine ⟨by simp [total_rental_per_weekday, reindex, day_order], ?_, ?_⟩
  · simp [total_rental_per_weekday, reindex, List.map_map, Function.comp_def]
  · intro d hd
    unfold total_rental_per_weekday reindex
    rw [lookup_map_self, if_pos hd]
    unfold groupby_sum_total
    rw [lookup_map_self]
    by_cases hmem : d ∈ sortDedup (rows.map Record.weekday)
    · rw [if_pos hmem, if_pos]
      rw [mem_sortDedup, List.mem_map] at hmem
      obtain ⟨r, hr, hrd⟩ := hmem
      rw [List.any_eq_true]
      exact ⟨r, hr, by simp [hrd]⟩
    · rw [if_neg hmem, if_neg]
      rw [mem_sortDedup, List.mem_map] at hmem
      rw [List.any_eq_true]
      rintro ⟨r, hr, hrd⟩
      exact hmem ⟨r, hr, by simpa using hrd⟩

theorem pivotCell_getD (rows : List Record) (p : Record → Bool) :
    (pivotCell rows p).getD 0 = sumTotal (rows.filter p) := by
  unfold pivotCell
  by_cases h : rows.any p
  · rw [if_pos h]; rfl
  · rw [if_neg h]
    have hnil : rows.filter p = [] := by
      rw [List.filter_eq_nil_iff]
      intro a ha hpa
      exact h (List.any_eq_true.mpr ⟨a, ha, hpa⟩)
    rw [hnil]; rfl

theorem sum_map_add_int {α : Type} (f g : α → Int) (l : List α) :
    (l.map fun x => f x + g x).sum = (l.map f).sum + (l.map g).sum := by
  induction l with
  | nil => simp
  | cons x t ih => simp [ih]; ring

theorem sum_map_indicator (S : List String) (hS : S.Nodup) (a : String) (q : Bool)
    (v : Int) :
    (S.map fun s => if a == s && q then v else 0).sum =
      if a ∈ S ∧ q = true then v else 0 := by
  induction S with
  | nil => simp
  | cons k t ih =>
    rw [List.map_cons, List.sum_cons, ih (List.nodup_cons.mp hS).2]
    by_cases hak : a = k
    · subst hak
      have hnot : a ∉ t := (List.nodup_cons.mp hS).1
      by_cases hq : q <;> simp [hq, hnot]
    · have hbeq : (a == k) = false := beq_eq_false_iff_ne.mpr hak
      simp [hbeq, List.mem_cons, hak]

theorem sumTotal_filter_cons (r : Record) (t : List Record) (p : Record → Bool) :
    sumTotal ((r :: t).filter p) =
      (if p r then r.total else 0) + sumTotal (t.filter p) := by
  by_cases h : p r <;> simp [List.filter, h, sumTotal]

theorem sum_fiber (S : List String) (hS : S.Nodup) (rows : List Record) (w : String)
    (hcov : ∀ r ∈ rows, r.weather_situation = w → r.season ∈ S) :
    (S.map fun s =>
      sumTotal (rows.filter fun r => r.season == s && r.weather_situation == w)).sum =
      sumTotal (rows.filter fun r => r.weather_situation == w) := by
  induction rows with
  | nil => simp [sumTotal]
  | cons r t ih =>
    have hcov' : ∀ x ∈ t, x.weather_situation = w → x.season ∈ S :=
      fun x hx => hcov x (List.mem_cons_of_mem _ hx)
    have hh : ∀ s : String,
        sumTotal ((r :: t).filter fun x => x.season == s && x.weather_situation == w) =
          (if r.season == s && r.weather_situation == w then r.total else 0) +
          sumTotal (t.filter fun x => x.season == s && x.weather_situation == w) :=
      fun s => sumTotal_filter_cons r t _
    simp only [hh]
    rw [sum_map_add_int, sum_map_indicator S hS r.season (r.weather_situation == w) r.total,
      ih hcov', sumTotal_filter_cons]
    by_cases hw : r.weather_situation == w
    · have hmem : r.season ∈ S := hcov r (List.mem_cons_self r t) (by simpa using hw)
      simp [hw, hmem]
    · simp [hw]

/-- C8: summing the season × weather pivot across all seasons, for each
weather situation, yields exactly the weather-situation totals series: the
two aggregations are consistent. -/
theorem season_weather_pivot_consistency (rows : List Record) :
    (∀ w, pivot_col_sum rows w =
      sumTotal (rows.filter fun r => r.weather_situation == w)) ∧
    weather_situation_total rows =
      (weathersOf rows).map fun w => (w, pivot_col_sum rows w) := by
  have key : ∀ w, pivot_col_sum rows w =
      sumTotal (rows.filter fun r => r.weather_situation == w) := by
    intro w
    unfold pivot_col_sum
    have hcell : ∀ s : String,
        (pivotCell rows fun r => r.season == s && r.weather_situation == w).getD 0 =
          sumTotal (rows.filter fun r => r.season == s && r.weather_situation == w) :=
      fun s => pivotCell_getD rows _
    simp only [hcell]
    exact sum_fiber (seasonsOf rows) (nodup_sortDedup _) rows w
      (fun r hr _ => (mem_sortDedup _ _).mpr (List.mem_map.mpr ⟨r, hr, rfl⟩))
  refine ⟨key, ?_⟩
  simp only [key]
  rfl

/-- C9: the cached source table is never modified.  `filtered_data` starts
as `data.copy()` (a fresh object) and each mask filter allocates again, so
the in-place `moving_avg_total` column assignment lands on an object distinct
from the cached one: after the whole pipeline, for every filter selection,
the object at reference 0 still holds the original rows and no added
column. -/
theorem load_data_cache_unmodified (data : List Record) (year_filter : List Int)
    (season_filter weather_filter : List String) :
    (runDashboard data year_filter season_filter weather_filter).get? 0 =
      some ⟨data, none⟩ ∧
    readDF (runDashboard data year_filter season_filter weather_filter) 0 =
      ⟨data, none⟩ := by
  have h : (runDashboard data year_filter season_filter weather_filter).get? 0 =
      some ⟨data, none⟩ := by
    by_cases h1 : year_filter.isEmpty <;> by_cases h2 : season_filter.isEmpty <;>
      by_cases h3 : weather_filter.isEmpty <;>
      simp [runDashboard, allocDF, readDF, setMavg, h1, h2, h3, List.append]
  exact ⟨h, by rw [readDF, h]; rfl⟩

/-- C10: when some weekday of the fixed Sun..Sat list is entirely absent
from the filtered table, the weekday × weather chart's `.loc[day_order]`
row selection raises a `KeyError` (the label is not in the pivot's index),
while the weekday-totals path, which uses `reindex`, still returns its 7
entries with a missing (`NaN`) entry for that weekday. -/
theorem weekday_pivot_loc_fails (rows : List Record) (d : String)
    (hd : d ∈ day_order) (habs : ∀ r ∈ rows, r.weekday ≠ d) :
    total_rentals_weekday_weather rows =
      Except.error "KeyError: labels not in index" ∧
    (total_rental_per_weekday rows).length = 7 ∧
    (total_rental_per_weekday rows).lookup d = some none := by
  have hnotmem : d ∉ weekdaysOf rows := by
    rw [weekdaysOf, mem_sortDedup, List.mem_map]
    rintro ⟨r, hr, hrd⟩
    exact habs r hr hrd
  have hlook : (weekday_weather_pivot rows).lookup d = none := by
    unfold weekday_weather_pivot
    rw [lookup_map_self, if_neg hnotmem]
  refine ⟨?_, by simp [total_rental_per_weekday, reindex, day_order], ?_⟩
  · unfold total_rentals_weekday_weather locRows
    rw [if_neg]
    intro hall
    have := List.all_eq_true.mp hall d hd
    rw [hlook] at this
    simp at this
  · unfold total_rental_per_weekday reindex
    rw [lookup_map_self, if_pos hd]
    unfold groupby_sum_total
    rw [lookup_map_self, if_neg]
    rw [mem_sortDedup, List.mem_map]
    rintro ⟨r, hr, hrd⟩
    exact habs r hr hrd

theorem poly1d_three (a b c t : Rat) :
    poly1d [a, b, c] t = a * t ^ 2 + b * t + c := by
  simp [poly1d]; ring

theorem sumPow_cons (a : Rat) (t : List Rat) (k : Nat) :
    sumPow (a :: t) k = a ^ k + sumPow t k := by
  simp [sumPow]

theorem sumPowY_cons (a b : Rat) (t u : List Rat) (k : Nat) :
    sumPowY (a :: t) (b :: u) k = a ^ k * b + sumPowY t u k := by
  simp [sumPowY]

theorem resid_moment (x : List Rat) (c2 c1 c0 : Rat) (j : Nat) :
    ∀ y : List Rat, x.length = y.length →
      ((x.zip y).map fun p => (c2 * p.1 ^ 2 + c1 * p.1 + c0 - p.2) * p.1 ^ j).sum =
        c2 * sumPow x (j + 2) + c1 * sumPow x (j + 1) + c0 * sumPow x j -
          sumPowY x y j := by
  induction x with
  | nil =>
    intro y h
    cases y with
    | nil => simp [sumPow, sumPowY]
    | cons b u => simp at h
  | cons a t ih =>
    intro y h
    cases y with
    | nil => simp at h
    | cons b u =>
      have hlen : t.length = u.length := by simpa using h
      simp only [List.zip_cons_cons, List.map_cons, List.sum_cons, ih u hlen,
        sumPow_cons, sumPowY_cons]
      ring

theorem cramer3_solves (s0 s1 s2 s3 s4 t0 t1 t2 : Rat)
    (hd : det3 s4 s3 s2 s3 s2 s1 s2 s1 s0 ≠ 0) :
    s4 * (det3 t2 s3 s2 t1 s2 s1 t0 s1 s0 / det3 s4 s3 s2 s3 s2 s1 s2 s1 s0) +
      s3 * (det3 s4 t2 s2 s3 t1 s1 s2 t0 s0 / det3 s4 s3 s2 s3 s2 s1 s2 s1 s0) +
      s2 * (det3 s4 s3 t2 s3 s2 t1 s2 s1 t0 / det3 s4 s3 s2 s3 s2 s1 s2 s1 s0) = t2 ∧
    s3 * (det3 t2 s3 s2 t1 s2 s1 t0 s1 s0 / det3 s4 s3 s2 s3 s2 s1 s2 s1 s0) +
      s2 * (det3 s4 t2 s2 s3 t1 s1 s2 t0 s0 / det3 s4 s3 s2 s3 s2 s1 s2 s1 s0) +
      s1 * (det3 s4 s3 t2 s3 s2 t1 s2 s1 t0 / det3 s4 s3 s2 s3 s2 s1 s2 s1 s0) = t1 ∧
    s2 * (det3 t2 s3 s2 t1 s2 s1 t0 s1 s0 / det3 s4 s3 s2 s3 s2 s1 s2 s1 s0) +
      s1 * (det3 s4 t2 s2 s3 t1 s1 s2 t0 s0 / det3 s4 s3 s2 s3 s2 s1 s2 s1 s0) +
      s0 * (det3 s4 s3 t2 s3 s2 t1 s2 s1 t0 / det3 s4 s3 s2 s3 s2 s1 s2 s1 s0) = t0 := by
  unfold det3 at *
  refine ⟨?_, ?_, ?_⟩ <;> field_simp <;> ring

theorem residual_decomp_pts (pts : List (Rat × Rat)) (c2 c1 c0 d2 d1 d0 : Rat) :
    (pts.map fun p => (d2 * p.1 ^ 2 + d1 * p.1 + d0 - p.2) ^ 2).sum =
      (pts.map fun p => (c2 * p.1 ^ 2 + c1 * p.1 + c0 - p.2) ^ 2).sum +
      2 * ((d2 - c2) *
            (pts.map fun p => (c2 * p.1 ^ 2 + c1 * p.1 + c0 - p.2) * p.1 ^ 2).sum +
           (d1 - c1) *
            (pts.map fun p => (c2 * p.1 ^ 2 + c1 * p.1 + c0 - p.2) * p.1 ^ 1).sum +
           (d0 - c0) *
            (pts.map fun p => (c2 * p.1 ^ 2 + c1 * p.1 + c0 - p.2) * p.1 ^ 0).sum) +
      (pts.map fun p => ((d2 - c2) * p.1 ^ 2 + (d1 - c1) * p.1 + (d0 - c0)) ^ 2).sum := by
  induction pts with
  | nil => simp
  | cons p t ih =>
    simp only [List.map_cons, List.sum_cons, ih]
    ring

theorem sum_sq_nonneg (pts : List (Rat × Rat)) (f : Rat × Rat → Rat) :
    0 ≤ (pts.map fun p => f p ^ 2).sum := by
  apply List.sum_nonneg
  intro q hq
  rw [List.mem_map] at hq
  obtain ⟨p, _, rfl⟩ := hq
  exact sq_nonneg (f p)

theorem polyfit2_eq_cramer (x y : List Rat) (hd : detNormal2 x ≠ 0) :
    polyfit2 x y =
      [det3 (sumPowY x y 2) (sumPow x 3) (sumPow x 2)
         (sumPowY x y 1) (sumPow x 2) (sumPow x 1)
         (sumPowY x y 0) (sumPow x 1) (sumPow x 0) / detNormal2 x,
       det3 (sumPow x 4) (sumPowY x y 2) (sumPow x 2)
         (sumPow x 3) (sumPowY x y 1) (sumPow x 1)
         (sumPow x 2) (sumPowY x y 0) (sumPow x 0) / detNormal2 x,
       det3 (sumPow x 4) (sumPow x 3) (sumPowY x y 2)
         (sumPow x 3) (sumPow x 2) (sumPowY x y 1)
         (sumPow x 2) (sumPow x 1) (sumPowY x y 0) / detNormal2 x] := by
  unfold detNormal2 at hd ⊢
  simp only [polyfit2]
  rw [if_pos hd]

theorem polyfit2_normal_equations (x y : List Rat) (hlen : x.length = y.length)
    (hd : detNormal2 x ≠ 0) :
    ∀ j, j ≤ 2 →
      ((x.zip y).map fun p =>
        ((polyfit2 x y).getD 0 0 * p.1 ^ 2 + (polyfit2 x y).getD 1 0 * p.1 +
          (polyfit2 x y).getD 2 0 - p.2) * p.1 ^ j).sum = 0 := by
  have hc := polyfit2_eq_cramer x y hd
  have hcr := cramer3_solves (sumPow x 0) (sumPow x 1) (sumPow x 2) (sumPow x 3)
    (sumPow x 4) (sumPowY x y 0) (sumPowY x y 1) (sumPowY x y 2)
    (by unfold detNormal2 at hd; exact hd)
  intro j hj
  rw [resid_moment x _ _ _ j y hlen, hc]
  interval_cases j
  · simp only [List.getD_cons_zero, List.getD_cons_succ]
    have := hcr.2.2
    unfold detNormal2
    linarith [this]
  · simp only [List.getD_cons_zero, List.getD_cons_succ]
    have := hcr.2.1
    unfold detNormal2
    linarith [this]
  · simp only [List.getD_cons_zero, List.getD_cons_succ]
    have := hcr.1
    unfold detNormal2
    linarith [this]

theorem polyfit2_isLeastSquares (x y : List Rat) (hlen : x.length = y.length)
    (hd : detNormal2 x ≠ 0) : IsLeastSquaresFit2 x y (polyfit2 x y) := by
  intro d hdlen
  obtain ⟨d2, d1, d0, rfl⟩ : ∃ a b c, d = [a, b, c] := by
    match d, hdlen with
    | [a, b, c], _ => exact ⟨a, b, c, rfl⟩
  set c2 := (polyfit2 x y).getD 0 0 with hc2
  set c1 := (polyfit2 x y).getD 1 0 with hc1
  set c0 := (polyfit2 x y).getD 2 0 with hc0
  have hcform : polyfit2 x y = [c2, c1, c0] := by
    rw [polyfit2_eq_cramer x y hd] at hc2 hc1 hc0 ⊢
    simp only [List.getD_cons_zero, List.getD_cons_succ] at hc2 hc1 hc0
    rw [← hc2, ← hc1, ← hc0]
  have hne := polyfit2_normal_equations x y hlen hd
  have h2 := hne 2 (by omega)
  have h1 := hne 1 (by omega)
  have h0 := hne 0 (by omega)
  rw [← hc2, ← hc1, ← hc0] at h2 h1 h0
  rw [hcform]
  unfold residual2
  simp only [poly1d_three]
  rw [residual_decomp_pts (x.zip y) c2 c1 c0 d2 d1 d0, h2, h1, h0]
  have hsq := sum_sq_nonneg (x.zip y)
    (fun p => (d2 - c2) * p.1 ^ 2 + (d1 - c1) * p.1 + (d0 - c0))
  simp only at hsq
  linarith

theorem foldl_min_le (t : List Rat) : ∀ b : Rat,
    t.foldl min b ≤ b ∧ ∀ a ∈ t, t.foldl min b ≤ a := by
  induction t with
  | nil => intro b; simp
  | cons c t ih =>
    intro b
    have h := ih (min b c)
    refine ⟨le_trans h.1 (min_le_left b c), ?_⟩
    intro a ha
    rcases List.mem_cons.mp ha with rfl | ha
    · exact le_trans h.1 (min_le_right b a)
    · exact h.2 a ha

theorem le_foldl_max (t : List Rat) : ∀ b : Rat,
    b ≤ t.foldl max b ∧ ∀ a ∈ t, a ≤ t.foldl max b := by
  induction t with
  | nil => intro b; simp
  | cons c t ih =>
    intro b
    have h := ih (max b c)
    refine ⟨le_trans (le_max_left b c) h.1, ?_⟩
    intro a ha
    rcases List.mem_cons.mp ha with rfl | ha
    · exact le_trans (le_max_right b a) h.1
    · exact h.2 a ha

theorem listMin_le (l : List Rat) (a : Rat) (ha : a ∈ l) : listMin l ≤ a := by
  cases l with
  | nil => cases ha
  | cons b t =>
    rcases List.mem_cons.mp ha with rfl | ha
    · exact (foldl_min_le t a).1
    · exact (foldl_min_le t b).2 a ha

theorem le_listMax (l : List Rat) (a : Rat) (ha : a ∈ l) : a ≤ listMax l := by
  cases l with
  | nil => cases ha
  | cons b t =>
    rcases List.mem_cons.mp ha with rfl | ha
    · exact (le_foldl_max t a).1
    · exact (le_foldl_max t b).2 a ha

theorem listMin_lt_listMax (l : List Rat) (a b : Rat) (ha : a ∈ l) (hb : b ∈ l)
    (hab : a ≠ b) : listMin l < listMax l := by
  rcases lt_or_le (listMin l) (listMax l) with h | h
  · exact h
  · exfalso
    apply hab
    have h1 : a ≤ listMin l := le_trans (le_listMax l a ha) h
    have h2 : b ≤ listMin l := le_trans (le_listMax l b hb) h
    have h3 : listMin l ≤ a := listMin_le l a ha
    have h4 : listMin l ≤ b := listMin_le l b hb
    rw [le_antisymm h1 h3, le_antisymm h2 h4]

theorem sumPow_all_eq (x : List Rat) (a : Rat) (h : ∀ b ∈ x, b = a) (k : Nat) :
    sumPow x k = (x.length : Rat) * a ^ k := by
  induction x with
  | nil => simp [sumPow]
  | cons c t ih =>
    have hc : c = a := h c (List.mem_cons_self c t)
    have ht : ∀ b ∈ t, b = a := fun b hb => h b (List.mem_cons_of_mem c hb)
    rw [sumPow_cons, ih ht, hc, List.length_cons]
    push_cast
    ring

theorem detNormal2_all_eq (x : List Rat) (a : Rat) (h : ∀ b ∈ x, b = a) :
    detNormal2 x = 0 := by
  unfold detNormal2 det3
  rw [sumPow_all_eq x a h 0, sumPow_all_eq x a h 1, sumPow_all_eq x a h 2,
    sumPow_all_eq x a h 3, sumPow_all_eq x a h 4]
  ring

theorem exists_two_distinct (x : List Rat) (hd : detNormal2 x ≠ 0) :
    ∃ a ∈ x, ∃ b ∈ x, a ≠ b := by
  by_contra hcon
  push_neg at hcon
  cases x with
  | nil => exact hd (by simp [detNormal2, sumPow, det3])
  | cons c t =>
    exact hd (detNormal2_all_eq (c :: t) c
      (fun b hb => hcon b hb c (List.mem_cons_self c t)))

theorem linspace_getD (lo hi : Rat) (num i : Nat) (h : i < num) :
    (linspace lo hi num).getD i 0 = lo + i * (hi - lo) / ((num : Rat) - 1) := by
  unfold linspace
  rw [List.getD_eq_getElem _ _ (by simpa using h)]
  simp

theorem prp_eq (x y : List Rat) (hx : x ≠ []) (hlen : x.length = y.length) :
    polynomial_regression_predict x y =
      some (linspace (listMin x) (listMax x) 200,
        (linspace (listMin x) (listMax x) 200).map (poly1d (polyfit2 x y))) := by
  unfold polynomial_regression_predict
  rw [if_neg (by simp [hx, hlen])]

/-- C5 counterexample: the trend-fitting function performs no
distinct-x-count check and no zero-width-range check.  With only 2 distinct
x-values and degree 2 it returns a result (numpy's `polyfit` only emits a
`RankWarning` for a rank-deficient fit), and with all x-values identical it
also returns a result (a constant 200-point grid) — neither an
InsufficientData nor a DegenerateInput error exists in the code. -/
theorem trend_fit_no_error_on_degenerate :
    (polynomial_regression_predict [0, 1] [0, 1]).isSome = true ∧
    (polynomial_regression_predict [5, 5] [1, 2]).isSome = true := by
  constructor
  · rw [prp_eq [0, 1] [0, 1] (by simp) rfl]; rfl
  · rw [prp_eq [5, 5] [1, 2] (by simp) rfl]; rfl

/-- C5 (amended): for every non-empty input with equally long `xs` and `ys`
— including inputs with fewer than 3 distinct x-values or with all x-values
identical — the trend-fitting function succeeds and returns two series of
length 200; it fails only on empty or length-mismatched input (the
`TypeError` from `np.polyfit`). -/
theorem trend_fit_succeeds_nonempty (x y : List Rat) (hx : x ≠ [])
    (hlen : x.length = y.length) :
    ∃ gp : List Rat × List Rat, polynomial_regression_predict x y = some gp ∧
      gp.1.length = 200 ∧ gp.2.length = 200 := by
  exact ⟨_, prp_eq x y hx hlen, by simp [linspace], by simp [linspace]⟩

/-- Witness for the amended C5 at the concrete degenerate input
`xs = [0,1]`, `ys = [0,1]`. -/
theorem trend_fit_succeeds_nonempty_witness :
    ([0, 1] : List Rat) ≠ [] ∧
    ([0, 1] : List Rat).length = ([0, 1] : List Rat).length ∧
    ∃ gp : List Rat × List Rat,
      polynomial_regression_predict [0, 1] [0, 1] = some gp ∧
      gp.1.length = 200 ∧ gp.2.length = 200 :=
  ⟨by simp, rfl, trend_fit_succeeds_nonempty [0, 1] [0, 1] (by simp) rfl⟩

/-- C6: on a non-degenerate input (the degree-2 normal matrix of the
x-values is invertible, which holds exactly when at least 3 distinct
x-values are present) the trend fit returns grids of length exactly 200;
the x-grid is linearly spaced with step `(max - min)/199`, strictly
ascending, starting at `min(xs)` and ending at `max(xs)`; and the predicted
ys are the evaluations at the grid points of the fitted coefficients, which
are a least-squares degree-2 polynomial fit of the data. -/
theorem polynomial_regression_predict_spec (x y : List Rat)
    (hlen : x.length = y.length) (hd : detNormal2 x ≠ 0) :
    ∃ gp : List Rat × List Rat,
      polynomial_regression_predict x y = some gp ∧
      gp.1.length = 200 ∧ gp.2.length = 200 ∧
      (∀ i, i < 200 →
        gp.1.getD i 0 = listMin x + i * (listMax x - listMin x) / 199) ∧
      (∀ i, i + 1 < 200 → gp.1.getD i 0 < gp.1.getD (i + 1) 0) ∧
      gp.1.getD 0 0 = listMin x ∧ gp.1.getD 199 0 = listMax x ∧
      gp.2 = gp.1.map (poly1d (polyfit2 x y)) ∧
      (polyfit2 x y).length = 3 ∧
      IsLeastSquaresFit2 x y (polyfit2 x y) := by
  have hxne : x ≠ [] := by
    intro h
    subst h
    exact hd (by simp [detNormal2, sumPow, det3])
  obtain ⟨a, ha, b, hb, hab⟩ := exists_two_distinct x hd
  have hlohi : listMin x < listMax x := listMin_lt_listMax x a b ha hb hab
  have hstep : (0 : Rat) < listMax x - listMin x := sub_pos.mpr hlohi
  have hform : ∀ i, i < 200 →
      (linspace (listMin x) (listMax x) 200).getD i 0 =
        listMin x + i * (listMax x - listMin x) / 199 := by
    intro i hilt
    rw [linspace_getD _ _ _ _ hilt]
    norm_num
  refine ⟨_, prp_eq x y hxne hlen, by simp [linspace], by simp [linspace],
    hform, ?_, ?_, ?_, rfl, ?_, polyfit2_isLeastSquares x y hlen hd⟩
  · intro i hilt
    rw [hform i (by omega), hform (i + 1) hilt,
      add_lt_add_iff_left, div_lt_div_iff_of_pos_right (by norm_num : (0 : Rat) < 199)]
    apply mul_lt_mul_of_pos_right _ hstep
    push_cast
    linarith
  · rw [hform 0 (by omega)]
    norm_num
  · rw [hform 199 (by omega)]
    have h199 : (199 : Rat) ≠ 0 := by norm_num
    field_simp
  · rw [polyfit2_eq_cramer x y hd]
    rfl

/-- Witness for C2 at the concrete input `testRows`, `i = 9`: the tenth
moving-average entry is the mean of the first ten totals. -/
theorem moving_avg_total_spec_witness :
    9 < testRows.length ∧
    (moving_avg_total testRows).getD 9 none =
      some ((∑ k ∈ Finset.range 10, (totalsOf testRows).getD (9 - 9 + k) 0) / 10) :=
  ⟨by decide, (moving_avg_total_spec testRows 9 (by decide)).1 (by decide)⟩

theorem detNormal2_concrete : detNormal2 [0, 1, 2] ≠ 0 := by
  norm_num [detNormal2, sumPow, det3]

/-- Witness for C6 at the concrete input `xs = [0, 1, 2]`, `ys = [1, 3, 7]`
(three distinct x-values, so the normal matrix is invertible). -/
theorem polynomial_regression_predict_spec_witness :
    ([0, 1, 2] : List Rat).length = ([1, 3, 7] : List Rat).length ∧
    detNormal2 [0, 1, 2] ≠ 0 ∧
    ∃ gp : List Rat × List Rat,
      polynomial_regression_predict [0, 1, 2] [1, 3, 7] = some gp ∧
      gp.1.length = 200 ∧ gp.2.length = 200 ∧
      (∀ i, i < 200 → gp.1.getD i 0 =
        listMin [0, 1, 2] + i * (listMax [0, 1, 2] - listMin [0, 1, 2]) / 199) ∧
      (∀ i, i + 1 < 200 → gp.1.getD i 0 < gp.1.getD (i + 1) 0) ∧
      gp.1.getD 0 0 = listMin [0, 1, 2] ∧ gp.1.getD 199 0 = listMax [0, 1, 2] ∧
      gp.2 = gp.1.map (poly1d (polyfit2 [0, 1, 2] [1, 3, 7])) ∧
      (polyfit2 [0, 1, 2] [1, 3, 7]).length = 3 ∧
      IsLeastSquaresFit2 [0, 1, 2] [1, 3, 7] (polyfit2 [0, 1, 2] [1, 3, 7]) :=
  ⟨rfl, detNormal2_concrete,
    polynomial_regression_predict_spec [0, 1, 2] [1, 3, 7] rfl detNormal2_concrete⟩

/-- Witness for C7 at the concrete one-row input `[rec2012]` (weekday Sun)
and the absent weekday Mon: the reindexed series has a missing entry. -/
theorem total_rental_per_weekday_spec_witness :
    "Mon" ∈ day_order ∧
    (total_rental_per_weekday [rec2012]).lookup "Mon" =
      some (if [rec2012].any fun r => r.weekday == "Mon" then
        some (sumTotal ([rec2012].filter fun r => r.weekday == "Mon"))
      else none) :=
  ⟨by decide, (total_rental_per_weekday_spec [rec2012]).2.2 "Mon" (by decide)⟩

/-- Witness for C10 at the concrete one-row input `[rec2012]` (weekday Sun):
Mon is absent, the pivot `.loc` raises a KeyError, the weekday totals do
not. -/
theorem weekday_pivot_loc_fails_witness :
    "Mon" ∈ day_order ∧ (∀ r ∈ [rec2012], r.weekday ≠ "Mon") ∧
    (total_rentals_weekday_weather [rec2012] =
      Except.error "KeyError: labels not in index" ∧
    (total_rental_per_weekday [rec2012]).length = 7 ∧
    (total_rental_per_weekday [rec2012]).lookup "Mon" = some none) :=
  ⟨by decide, by decide,
    weekday_pivot_loc_fails [rec2012] "Mon" (by decide) (by decide)⟩

end BikeSharing
